import Mathlib

/-!
Shallow embedding of the multi-body dynamics engine
(`src/Multibodydynamics_engine/python/classes/RigidBody.py` and
`src/Multibodydynamics_engine/python/classes/MultiRigidBody.py`).

Machine arithmetic: the Python code computes with numpy floats; the claims under
study are exact-arithmetic statements (exact solve, exact row dropping, exact
orthonormality), so the embedding works over exact fields: `ℚ` for everything
algebraic and `ℝ` where the matrix exponential is needed.  `numpy.linalg.solve`
and `numpy.linalg.inv` raise `LinAlgError` on a singular matrix; this is
embedded as `Option`, `none` marking the raised error.

External collaborators (`Joint`, `SpringDamper`, `BilateralConstraint`,
vpython) are not part of the two source files; per their contracts they are
modelled as opaque inputs: a tree node carries the per-body state that the
joint-driven forward-kinematics pass produced, each spring-damper is its
returned `tau` vector, and each bilateral constraint is the `(J, sigma)` rows
returned by `getConstraintTerms`.
-/

open Matrix

namespace MBDE

/-- Modelled from the spec: `robotics_helpfuns.skew` is imported by both source
files but `robotics_helpfuns.py` is not among the provided sources.  The spec
and the source comments describe it as the skew-symmetric (cross-product)
matrix of a 3-vector, i.e. `skew(w) @ v = w × v`. -/
def skew {R : Type*} [CommRing R] (w : Fin 3 → R) : Matrix (Fin 3) (Fin 3) R :=
  !![0, -w 2, w 1; w 2, 0, -w 0; -w 1, w 0, 0]

/-- `numpy.linalg.solve(A, b)` on an exact field: the unique solution of
`A x = b` when `A` is invertible (computed through the adjugate), and `none`
(numpy raises `LinAlgError`) when `A` is singular. -/
def npSolve {K : Type*} [Field K] [DecidableEq K] {n : Type*} [Fintype n] [DecidableEq n]
    (A : Matrix n n K) (b : n → K) : Option (n → K) :=
  if A.det = 0 then none else some (A.det⁻¹ • (A.adjugate *ᵥ b))

/-- `numpy.linalg.inv(A)` on an exact field: `none` (raised `LinAlgError`) when
`A` is singular. -/
def npInv {K : Type*} [Field K] [DecidableEq K] {n : Type*} [Fintype n] [DecidableEq n]
    (A : Matrix n n K) : Option (Matrix n n K) :=
  if A.det = 0 then none else some (A.det⁻¹ • A.adjugate)

/-- The fields a `RigidBody` (RigidBody.py, `__init__`, lines 11-29) carries:
inertial constants `m_B`, `B_I_B`, the gravity vector `I_grav`, and the
per-step body state.  (The child/parent joint links live in the tree type
`BodyTree` below; the two Jacobians are only set by the kinematics pass and
belong to `BodyKin`.) -/
structure RigidBody (K : Type*) [Field K] where
  m_B : K
  B_I_B : Matrix (Fin 3) (Fin 3) K
  I_grav : Fin 3 → K
  A_IB : Matrix (Fin 3) (Fin 3) K
  B_omega_B : Fin 3 → K
  B_omegaDot_B : Fin 3 → K
  B_r_IB : Fin 3 → K
  B_v_B : Fin 3 → K
  B_a_B : Fin 3 → K

/-- `RigidBody.integrationStep(delta_t)` (RigidBody.py lines 43-56): forward
Euler for `B_r_IB`, `B_v_B` (corrected by the moving-frame term
`skew(B_omega_B) @ ·`), exact exponential-map update of `A_IB`, and forward
Euler for `B_omega_B`.  All right-hand sides use the pre-step state, exactly as
in the source (the updates there do not feed each other). -/
noncomputable def integrationStep (delta_t : ℝ) (s : RigidBody ℝ) : RigidBody ℝ :=
  let B_omega_IB := skew s.B_omega_B
  let I_omega_IB := skew (s.A_IB *ᵥ s.B_omega_B)
  { s with
    B_r_IB := s.B_r_IB + delta_t • (s.B_v_B - B_omega_IB *ᵥ s.B_r_IB)
    B_v_B := s.B_v_B + delta_t • (s.B_a_B - B_omega_IB *ᵥ s.B_v_B)
    A_IB := NormedSpace.exp ℝ (delta_t • I_omega_IB) * s.A_IB
    B_omega_B := s.B_omega_B + delta_t • (s.B_omegaDot_B - 0) }

/-- `RigidBody.computeNaturalDynamics()` (RigidBody.py lines 74-88):
`B_pDot = 0`, `B_LDot_B = 0`, `B_L_B = B_I_B @ B_omega_B`, then
`B_a_B := B_pDot / m_B` and
`B_omegaDot_B := inv(B_I_B) @ (B_LDot_B - skew(B_omega_B) @ B_L_B)`.
`inv` is `npInv`, so a singular inertia tensor yields `none` (raised error). -/
def computeNaturalDynamics {K : Type*} [Field K] [DecidableEq K] (body : RigidBody K) :
    Option (RigidBody K) :=
  let B_pDot : Fin 3 → K := 0
  let B_LDot_B : Fin 3 → K := 0
  let B_L_B := body.B_I_B *ᵥ body.B_omega_B
  let B_omega_IB := skew body.B_omega_B
  (npInv body.B_I_B).map fun Iinv =>
    { body with
      B_a_B := fun i => B_pDot i / body.m_B
      B_omegaDot_B := Iinv *ᵥ (B_LDot_B - B_omega_IB *ᵥ B_L_B) }

/-- Per-body data as it stands when `_recursiveComputationOfMfg` runs: the
inertial constants together with the state and the two `3×nq` Jacobians that
the (joint-driven) forward-kinematics pass wrote into the body. -/
structure BodyKin (nq : Nat) where
  m_B : ℚ
  B_I_B : Matrix (Fin 3) (Fin 3) ℚ
  I_grav : Fin 3 → ℚ
  A_IB : Matrix (Fin 3) (Fin 3) ℚ
  B_omega_B : Fin 3 → ℚ
  B_omegaDot_B : Fin 3 → ℚ
  B_r_IB : Fin 3 → ℚ
  B_v_B : Fin 3 → ℚ
  B_a_B : Fin 3 → ℚ
  B_J_S : Matrix (Fin 3) (Fin nq) ℚ
  B_J_R : Matrix (Fin 3) (Fin nq) ℚ

mutual

/-- The kinematic tree: a body together with its child joints; each child joint
owns exactly one successor body (`childJoint.sucBody`). -/
inductive BodyTree (nq : Nat) where
  | node (body : BodyKin nq) (childJoints : BodyForest nq)

/-- The list of child joints of a body, each represented by its successor
subtree. -/
inductive BodyForest (nq : Nat) where
  | nil
  | cons (sucBody : BodyTree nq) (rest : BodyForest nq)

end

/-- The local `(M, f, g)` contribution of one body
(RigidBody.py lines 120-126):
`M = B_J_S.T * m_B @ B_J_S + B_J_R.T @ B_I_B @ B_J_R`,
`f = - B_J_S.T * m_B @ B_a_B - B_J_R.T @ (B_I_B @ B_omegaDot_B + skew(B_omega_B) @ B_I_B @ B_omega_B)`,
`g = B_J_S.T @ A_IB.T @ I_grav * m_B + B_J_R.T @ A_IB.T @ 0`. -/
def localMfg {nq : Nat} (d : BodyKin nq) :
    Matrix (Fin nq) (Fin nq) ℚ × (Fin nq → ℚ) × (Fin nq → ℚ) :=
  ⟨d.m_B • (d.B_J_Sᵀ * d.B_J_S) + d.B_J_Rᵀ * d.B_I_B * d.B_J_R,
   -(d.m_B • (d.B_J_Sᵀ *ᵥ d.B_a_B)) -
     d.B_J_Rᵀ *ᵥ (d.B_I_B *ᵥ d.B_omegaDot_B + skew d.B_omega_B *ᵥ (d.B_I_B *ᵥ d.B_omega_B)),
   d.m_B • (d.B_J_Sᵀ *ᵥ (d.A_IBᵀ *ᵥ d.I_grav)) + d.B_J_Rᵀ *ᵥ (d.A_IBᵀ *ᵥ (0 : Fin 3 → ℚ))⟩

/-- Componentwise sum of two `(M, f, g)` triples (the `M += M_part` etc. loop
body of RigidBody.py lines 128-132). -/
def mfgAdd {nq : Nat} (a b : Matrix (Fin nq) (Fin nq) ℚ × (Fin nq → ℚ) × (Fin nq → ℚ)) :
    Matrix (Fin nq) (Fin nq) ℚ × (Fin nq → ℚ) × (Fin nq → ℚ) :=
  ⟨a.1 + b.1, a.2.1 + b.2.1, a.2.2 + b.2.2⟩

mutual

/-- `RigidBody._recursiveComputationOfMfg()` (RigidBody.py lines 115-133): the
local contribution plus the sum of the children's recursively computed
contributions. -/
def treeMfg {nq : Nat} : BodyTree nq → Matrix (Fin nq) (Fin nq) ℚ × (Fin nq → ℚ) × (Fin nq → ℚ)
  | .node d cs => mfgAdd (localMfg d) (forestMfg cs)

/-- The `for childJoint in self.childJoints` accumulation loop of
`_recursiveComputationOfMfg`. -/
def forestMfg {nq : Nat} : BodyForest nq → Matrix (Fin nq) (Fin nq) ℚ × (Fin nq → ℚ) × (Fin nq → ℚ)
  | .nil => ⟨0, 0, 0⟩
  | .cons t ts => mfgAdd (treeMfg t) (forestMfg ts)

end

/-- The assembled global mass matrix `M` of `getODE` (MultiRigidBody.py
line 40). -/
def massMatrix {nq : Nat} (tree : BodyTree nq) : Matrix (Fin nq) (Fin nq) ℚ :=
  (treeMfg tree).1

/-- `tau = 0; for springdamper in self.springDampers: tau += ...`
(MultiRigidBody.py lines 43-45); each spring-damper is modelled by the `tau`
vector its `computationOfTau()` returns. -/
def tauSum {nq : Nat} (taus : List (Fin nq → ℚ)) : Fin nq → ℚ :=
  taus.foldl (· + ·) 0

/-- `tauC = 0`, the always-zero controller input (MultiRigidBody.py line 48). -/
def tauC {nq : Nat} : Fin nq → ℚ := 0

/-- The right-hand side `f + g + tau + tauC` of `getODE`
(MultiRigidBody.py lines 67 and 72). -/
def rhsVec {nq : Nat} (tree : BodyTree nq) (taus : List (Fin nq → ℚ)) : Fin nq → ℚ :=
  (treeMfg tree).2.1 + (treeMfg tree).2.2 + tauSum taus + tauC

/-- One bilateral constraint is modelled by the rows its `getConstraintTerms()`
returns: each row of `J` paired with the matching entry of `sigma`. -/
abbrev ConstraintRows (nq : Nat) : Type :=
  List ((Fin nq → ℚ) × ℚ)

/-- The `vstack` loop of `getODE` (MultiRigidBody.py lines 51-55): all
constraint rows stacked in order. -/
def stackedRows {nq : Nat} (constraints : List (ConstraintRows nq)) : ConstraintRows nq :=
  constraints.flatten

/-- The row-dropping step (MultiRigidBody.py lines 60-62):
`colkeep = sum(J_lambda, axis=1) != 0` keeps exactly the stacked rows whose
entries do not sum to zero, applied to `J_lambda` and `sigma_lambda` alike. -/
def keptRows {nq : Nat} (constraints : List (ConstraintRows nq)) : ConstraintRows nq :=
  (stackedRows constraints).filter fun rc => decide ((∑ j, rc.1 j) ≠ 0)

/-- `nc = colkeep.sum()`, the recomputed number of active constraints
(MultiRigidBody.py line 63). -/
def activeNc {nq : Nat} (constraints : List (ConstraintRows nq)) : Nat :=
  (keptRows constraints).length

/-- The stacked (post-drop) constraint Jacobian `J_lambda` as a matrix. -/
def constraintMatrix {nq : Nat} (kept : ConstraintRows nq) :
    Matrix (Fin kept.length) (Fin nq) ℚ :=
  Matrix.of fun i j => (kept.get i).1 j

/-- The stacked (post-drop) constraint bias `sigma_lambda` as a vector. -/
def sigmaVec {nq : Nat} (kept : ConstraintRows nq) : Fin kept.length → ℚ :=
  fun i => (kept.get i).2

/-- The DAE system matrix `A = block([[M, -J_lambda.T], [J_lambda, 0]])`
(MultiRigidBody.py lines 65-66). -/
def saddleA {nq : Nat} (M : Matrix (Fin nq) (Fin nq) ℚ) (kept : ConstraintRows nq) :
    Matrix (Fin nq ⊕ Fin kept.length) (Fin nq ⊕ Fin kept.length) ℚ :=
  Matrix.fromBlocks M (-(constraintMatrix kept)ᵀ) (constraintMatrix kept) 0

/-- The DAE right-hand side `b = block([[f+g+tau+tauC], [-sigma_lambda]])`
(MultiRigidBody.py lines 67-68). -/
def saddleB {nq : Nat} (rhs : Fin nq → ℚ) (kept : ConstraintRows nq) :
    Fin nq ⊕ Fin kept.length → ℚ :=
  Sum.elim rhs fun i => -sigmaVec kept i

/-- The constrained branch of `getODE`: assemble the saddle-point system, solve
it, and return the first `nq` entries (`solve(A,b)[0:self.nq]`), discarding the
Lagrange multipliers. -/
def daeSolve {nq : Nat} (M : Matrix (Fin nq) (Fin nq) ℚ) (rhs : Fin nq → ℚ)
    (kept : ConstraintRows nq) : Option (Fin nq → ℚ) :=
  (npSolve (saddleA M kept) (saddleB rhs kept)).map fun x => x ∘ Sum.inl

/-- `MultiRigidBody.getODE(q, qDot)` (MultiRigidBody.py lines 32-77), modelled
from the point where the system matrices exist: the state-distribution and
kinematics steps (lines 36-39) run through the external `Joint` collaborator,
so the embedding takes the post-kinematics tree, the spring-damper `tau`
vectors and the constraints' `(J, sigma)` rows as inputs.  `if nc:` branches on
the pre-drop stacked size `sigma_lambda.size`; inside the branch the rows with
zero sum are dropped and the saddle-point system is solved, otherwise
`M·qDDot = f+g+tau+tauC` is solved directly.  The `.squeeze()` on the returned
slice is a shape-level operation modelled separately by `getODEReturnShape`. -/
def getODE {nq : Nat} (tree : BodyTree nq) (taus : List (Fin nq → ℚ))
    (constraints : List (ConstraintRows nq)) : Option (Fin nq → ℚ) :=
  if (stackedRows constraints).isEmpty then
    npSolve (massMatrix tree) (rhsVec tree taus)
  else
    daeSolve (massMatrix tree) (rhsVec tree taus) (keptRows constraints)

/-! ### numpy shape semantics for the returned `qDDot`

`getODE` returns `solve(A,b)[0:self.nq].squeeze()`.  The linear algebra above
models the entries; the numpy array *shapes* are modelled here as lists of
axis lengths. -/

/-- `numpy.squeeze`: remove every axis of length 1. -/
def npSqueezeShape (s : List Nat) : List Nat :=
  s.filter fun d => decide (d ≠ 1)

/-- Shape of `solve(A, b)` for `A` of shape `(n, n)` and `b` of shape
`(n, 1)`: the result has shape `(n, 1)`. -/
def npSolveShape (n : Nat) : List Nat := [n, 1]

/-- Shape of `x[0:k]`: basic slicing clips the first axis to `min k d`. -/
def npSliceFirstShape (k : Nat) : List Nat → List Nat
  | [] => []
  | d :: rest => min k d :: rest

/-- The shape of the value `getODE` returns (MultiRigidBody.py line 75):
`solve(A,b)[0:nq].squeeze()` where the assembled system has `nq + nc`
equations. -/
def getODEReturnShape (nq nc : Nat) : List Nat :=
  npSqueezeShape (npSliceFirstShape nq (npSolveShape (nq + nc)))

/-! ### MultiRigidBody configuration state (`setup` / `nq`) -/

/-- The configuration error raised by the `assert self._nq > 0` guard of the
`nq` property (MultiRigidBody.py line 26; message:
Error: Please call setup() from Ground). -/
inductive ConfigError where
  | nqNotPositive
deriving DecidableEq

/-- The `_nq` field of a `MultiRigidBody` (the only configuration state the
claims concern). -/
structure MRBState where
  _nq : Int
deriving DecidableEq

/-- `MultiRigidBody.__init__` sets `self._nq = 0` (MultiRigidBody.py
line 14). -/
def mrbInit : MRBState := { _nq := 0 }

/-- `MultiRigidBody.setup(nq)` (MultiRigidBody.py lines 19-22): stores `nq`
unchecked.  It is modelled in `Except` to record which calls raise: the source
body is a single assignment, so every call returns normally. -/
def setup (s : MRBState) (nq : Int) : Except ConfigError MRBState :=
  Except.ok { s with _nq := nq }

/-- The `nq` property (MultiRigidBody.py lines 24-27):
`assert self._nq > 0` then return `self._nq`; a failing assert raises. -/
def nqGet (s : MRBState) : Except ConfigError Int :=
  if s._nq > 0 then Except.ok s._nq else Except.error ConfigError.nqNotPositive

/-! ### Predicates for the mass-matrix invariant -/

/-- Symmetric positive semi-definite, phrased over the exact field. -/
def IsSymmPSD {n : Type*} [Fintype n] (A : Matrix n n ℚ) : Prop :=
  Aᵀ = A ∧ ∀ x : n → ℚ, 0 ≤ x ⬝ᵥ (A *ᵥ x)

/-- The claim's per-body hypotheses: nonnegative mass and a symmetric positive
semi-definite inertia tensor (the Jacobians are arbitrary). -/
def BodyOK {nq : Nat} (d : BodyKin nq) : Prop :=
  0 ≤ d.m_B ∧ IsSymmPSD d.B_I_B

mutual

/-- `BodyOK` holding at every body of a tree. -/
def TreeBodiesOK {nq : Nat} : BodyTree nq → Prop
  | .node d cs => BodyOK d ∧ ForestBodiesOK cs

/-- `BodyOK` holding at every body of a forest. -/
def ForestBodiesOK {nq : Nat} : BodyForest nq → Prop
  | .nil => True
  | .cons t ts => TreeBodiesOK t ∧ ForestBodiesOK ts

end

/-! ### Concrete instances used by witnesses and counterexamples -/

/-- A concrete two-coordinate body: unit mass, identity inertia, zero gravity,
identity orientation, zero twist and bias state, translational Jacobian
embedding the two generalized velocities into the first two body axes. -/
def exBody : BodyKin 2 where
  m_B := 1
  B_I_B := 1
  I_grav := 0
  A_IB := 1
  B_omega_B := 0
  B_omegaDot_B := 0
  B_r_IB := 0
  B_v_B := 0
  B_a_B := 0
  B_J_S := Matrix.of ![![1, 0], ![0, 1], ![0, 0]]
  B_J_R := 0

/-- A one-body tree built from `exBody`. -/
def exTree : BodyTree 2 := .node exBody .nil

/-- A bilateral constraint contributing the single row `J = [1 1]`,
`sigma = 0` (row sum `2 ≠ 0`, so it is kept). -/
def exC : ConstraintRows 2 := [(fun _ => 1, 0)]

/-- A bilateral constraint contributing a single all-zero Jacobian row with
`sigma = 5` (row sum `0`, so it is dropped). -/
def zC : ConstraintRows 2 := [(0, 5)]

/-- A ground-like body (`Ground()` forces `m_B = 0`, `B_I_B = 0`; the root
reset of `_recursiveForwardKinematics` zeroes its state and Jacobians): its
mass-matrix contribution is zero, so a tree of grounds gives a singular
system. -/
def gBody : BodyKin 2 where
  m_B := 0
  B_I_B := 0
  I_grav := 0
  A_IB := 1
  B_omega_B := 0
  B_omegaDot_B := 0
  B_r_IB := 0
  B_v_B := 0
  B_a_B := 0
  B_J_S := 0
  B_J_R := 0

/-- A one-body tree with only the ground-like body: `M = 0`, a degenerate mass
matrix. -/
def gTree : BodyTree 2 := .node gBody .nil

/-- A concrete free body for the natural-dynamics witness: unit mass, identity
inertia, angular velocity `(1, 2, 3)`. -/
def exFreeBody : RigidBody ℚ where
  m_B := 1
  B_I_B := 1
  I_grav := 0
  A_IB := 1
  B_omega_B := ![1, 2, 3]
  B_omegaDot_B := 0
  B_r_IB := 0
  B_v_B := 0
  B_a_B := 0

/-- A concrete real-state body for the integration witness: identity
orientation, unit angular velocity about the third axis. -/
noncomputable def exRealBody : RigidBody ℝ where
  m_B := 1
  B_I_B := 1
  I_grav := 0
  A_IB := 1
  B_omega_B := ![0, 0, 1]
  B_omegaDot_B := 0
  B_r_IB := 0
  B_v_B := 0
  B_a_B := 0

end MBDE

namespace MBDE

/-! ## Helper lemmas -/

theorem npSolve_spec {K : Type*} [Field K] [DecidableEq K] {n : Type*} [Fintype n] [DecidableEq n]
    (A : Matrix n n K) (b : n → K) (h : A.det ≠ 0) :
    npSolve A b = some (A.det⁻¹ • (A.adjugate *ᵥ b)) ∧
      A *ᵥ (A.det⁻¹ • (A.adjugate *ᵥ b)) = b := by
  refine ⟨by simp [npSolve, h], ?_⟩
  rw [Matrix.mulVec_smul, Matrix.mulVec_mulVec, Matrix.mul_adjugate,
    Matrix.smul_mulVec_assoc, Matrix.one_mulVec, smul_smul, inv_mul_cancel₀ h, one_smul]

theorem npSolve_eq_none_iff {K : Type*} [Field K] [DecidableEq K] {n : Type*} [Fintype n]
    [DecidableEq n] (A : Matrix n n K) (b : n → K) :
    npSolve A b = none ↔ A.det = 0 := by
  by_cases h : A.det = 0 <;> simp [npSolve, h]

theorem keptRows_nil_of_stacked_nil {nq : Nat} (constraints : List (ConstraintRows nq))
    (h : stackedRows constraints = []) : keptRows constraints = [] := by
  simp [keptRows, h]

theorem stackedRows_append_single {nq : Nat} (cs : List (ConstraintRows nq))
    (c : ConstraintRows nq) : stackedRows (cs ++ [c]) = stackedRows cs ++ c := by
  simp [stackedRows]

theorem keptRows_append_zeroSumRow {nq : Nat} (cs : List (ConstraintRows nq))
    (r : Fin nq → ℚ) (sigma : ℚ) (h : (∑ j, r j) = 0) :
    keptRows (cs ++ [[(r, sigma)]]) = keptRows cs := by
  simp [keptRows, stackedRows, List.filter_append, h]


theorem daeSolve_nil {nq : Nat} (M : Matrix (Fin nq) (Fin nq) ℚ) (rhs : Fin nq → ℚ) :
    daeSolve M rhs ([] : ConstraintRows nq) = npSolve M rhs := by
  haveI : IsEmpty (Fin (List.length ([] : ConstraintRows nq))) :=
    inferInstanceAs (IsEmpty (Fin 0))
  set e := Equiv.sumEmpty (Fin nq) (Fin (List.length ([] : ConstraintRows nq))) with he
  have hA : saddleA M ([] : ConstraintRows nq) = M.submatrix e e := by
    ext i j
    rcases i with i | i
    · rcases j with j | j
      · simp [saddleA, he]
      · exact isEmptyElim j
    · exact isEmptyElim i
  have hb : saddleB rhs ([] : ConstraintRows nq) = rhs ∘ e := by
    funext i
    rcases i with i | i
    · simp [saddleB, he]
    · exact isEmptyElim i
  unfold daeSolve npSolve
  rw [hA, hb, Matrix.det_submatrix_equiv_self, Matrix.adjugate_submatrix_equiv_self]
  by_cases h : M.det = 0
  · rw [if_pos h, if_pos h]
    rfl
  · rw [if_neg h, if_neg h, Matrix.submatrix_mulVec_equiv]
    simp only [Option.map_some']
    congr 1

theorem getODE_of_stacked_nil {nq : Nat} (tree : BodyTree nq) (taus : List (Fin nq → ℚ))
    (constraints : List (ConstraintRows nq)) (h : stackedRows constraints = []) :
    getODE tree taus constraints = npSolve (massMatrix tree) (rhsVec tree taus) := by
  rw [getODE, if_pos (by simp [h])]

theorem getODE_of_stacked_ne_nil {nq : Nat} (tree : BodyTree nq) (taus : List (Fin nq → ℚ))
    (constraints : List (ConstraintRows nq)) (h : stackedRows constraints ≠ []) :
    getODE tree taus constraints =
      daeSolve (massMatrix tree) (rhsVec tree taus) (keptRows constraints) := by
  rw [getODE, if_neg (by simp [h])]

theorem getODE_append_zeroRow {nq : Nat} (tree : BodyTree nq) (taus : List (Fin nq → ℚ))
    (cs : List (ConstraintRows nq)) (sigma : ℚ) :
    getODE tree taus (cs ++ [[((0 : Fin nq → ℚ), sigma)]]) = getODE tree taus cs := by
  have hk := keptRows_append_zeroSumRow cs (0 : Fin nq → ℚ) sigma (by simp)
  have hne : stackedRows (cs ++ [[((0 : Fin nq → ℚ), sigma)]]) ≠ [] := by
    rw [stackedRows_append_single]; simp
  by_cases h : stackedRows cs = []
  · rw [getODE_of_stacked_ne_nil _ _ _ hne, getODE_of_stacked_nil _ _ _ h, hk,
      keptRows_nil_of_stacked_nil cs h, daeSolve_nil]
  · rw [getODE_of_stacked_ne_nil _ _ _ hne, getODE_of_stacked_ne_nil _ _ _ h, hk]

theorem getODE_dae_exists {nq : Nat} (tree : BodyTree nq) (taus : List (Fin nq → ℚ))
    (constraints : List (ConstraintRows nq))
    (hne : keptRows constraints ≠ [])
    (hdet : (saddleA (massMatrix tree) (keptRows constraints)).det ≠ 0) :
    ∃ x : (Fin nq ⊕ Fin (keptRows constraints).length) → ℚ,
      saddleA (massMatrix tree) (keptRows constraints) *ᵥ x =
        saddleB (rhsVec tree taus) (keptRows constraints) ∧
      getODE tree taus constraints = some (x ∘ Sum.inl) := by
  have hstack : stackedRows constraints ≠ [] := fun h =>
    hne (keptRows_nil_of_stacked_nil constraints h)
  obtain ⟨h1, h2⟩ := npSolve_spec (saddleA (massMatrix tree) (keptRows constraints))
    (saddleB (rhsVec tree taus) (keptRows constraints)) hdet
  refine ⟨_, h2, ?_⟩
  rw [getODE_of_stacked_ne_nil _ _ _ hstack, daeSolve, h1]
  rfl

/-- C1: after constraint gathering and row dropping, if the remaining
constraint count is positive the returned accelerations are the first `nq`
entries of the exact solution of the augmented saddle-point system
`[[M, -Jᵀ], [J, 0]] · [qDDot; λ] = [f+g+tau+tauC; -sigma]` (the multipliers
`λ` are discarded); if the remaining count is zero they solve
`M·qDDot = f+g+tau+tauC` directly. -/
theorem getODE_exact_saddle_solution {nq : Nat} (tree : BodyTree nq)
    (taus : List (Fin nq → ℚ)) (constraints : List (ConstraintRows nq)) :
    (keptRows constraints ≠ [] →
      (saddleA (massMatrix tree) (keptRows constraints)).det ≠ 0 →
      ∃ x : (Fin nq ⊕ Fin (keptRows constraints).length) → ℚ,
        saddleA (massMatrix tree) (keptRows constraints) *ᵥ x =
          saddleB (rhsVec tree taus) (keptRows constraints) ∧
        getODE tree taus constraints = some (x ∘ Sum.inl)) ∧
    (keptRows constraints = [] →
      (massMatrix tree).det ≠ 0 →
      ∃ y : Fin nq → ℚ,
        massMatrix tree *ᵥ y = rhsVec tree taus ∧
        getODE tree taus constraints = some y) := by
  constructor
  · exact getODE_dae_exists tree taus constraints
  · intro hk hdet
    obtain ⟨h1, h2⟩ := npSolve_spec (massMatrix tree) (rhsVec tree taus) hdet
    refine ⟨_, h2, ?_⟩
    by_cases h : stackedRows constraints = []
    · rw [getODE_of_stacked_nil _ _ _ h, h1]
    · rw [getODE_of_stacked_ne_nil _ _ _ h, hk, daeSolve_nil, h1]

/-- C3: whenever at least one constraint row survives dropping and the
assembled saddle-point matrix is invertible, the returned accelerations
satisfy `J·qDDot + sigma = 0` for every kept constraint row. -/
theorem getODE_satisfies_kept_constraints {nq : Nat} (tree : BodyTree nq)
    (taus : List (Fin nq → ℚ)) (constraints : List (ConstraintRows nq))
    (hne : keptRows constraints ≠ [])
    (hdet : (saddleA (massMatrix tree) (keptRows constraints)).det ≠ 0) :
    ∃ qDDot : Fin nq → ℚ, getODE tree taus constraints = some qDDot ∧
      ∀ i : Fin (keptRows constraints).length,
        (constraintMatrix (keptRows constraints) *ᵥ qDDot) i +
          sigmaVec (keptRows constraints) i = 0 := by
  obtain ⟨x, hx, hout⟩ := getODE_dae_exists tree taus constraints hne hdet
  refine ⟨x ∘ Sum.inl, hout, fun i => ?_⟩
  have hrow := congrFun hx (Sum.inr i)
  rw [saddleA, Matrix.fromBlocks_mulVec] at hrow
  simp only [Sum.elim_inr, Matrix.zero_mulVec, add_zero] at hrow
  rw [hrow]
  simp [saddleB]

/-- C6: a singular assembled system surfaces as an error (`none`, the raised
`LinAlgError`), and the result is an error only in that case: the solve
failure propagates unmodified, with no retry and no substituted default. -/
theorem getODE_singular_surfaces_error {nq : Nat} (tree : BodyTree nq)
    (taus : List (Fin nq → ℚ)) (constraints : List (ConstraintRows nq)) :
    (stackedRows constraints = [] →
      (getODE tree taus constraints = none ↔ (massMatrix tree).det = 0)) ∧
    (stackedRows constraints ≠ [] →
      (getODE tree taus constraints = none ↔
        (saddleA (massMatrix tree) (keptRows constraints)).det = 0)) := by
  constructor
  · intro h
    rw [getODE_of_stacked_nil _ _ _ h, npSolve_eq_none_iff]
  · intro h
    rw [getODE_of_stacked_ne_nil _ _ _ h, daeSolve, Option.map_eq_none', npSolve_eq_none_iff]

/-- C2: a stacked constraint row is kept iff its Jacobian entries do not sum
to zero; the active constraint count is recomputed from the kept mask; an
identically zero Jacobian row is excluded and, by itself, changes nothing in
the solve (so it cannot by itself cause a solve failure). -/
theorem getODE_row_dropping {nq : Nat} (constraints : List (ConstraintRows nq)) :
    (∀ rc : (Fin nq → ℚ) × ℚ,
      rc ∈ keptRows constraints ↔ rc ∈ stackedRows constraints ∧ (∑ j, rc.1 j) ≠ 0) ∧
    (activeNc constraints =
      (stackedRows constraints).countP fun rc => decide ((∑ j, rc.1 j) ≠ 0)) ∧
    (∀ rc : (Fin nq → ℚ) × ℚ, rc ∈ stackedRows constraints → rc.1 = 0 →
      rc ∉ keptRows constraints) ∧
    (∀ (tree : BodyTree nq) (taus : List (Fin nq → ℚ)) (sigma : ℚ),
      getODE tree taus (constraints ++ [[((0 : Fin nq → ℚ), sigma)]]) =
        getODE tree taus constraints) := by
  have hmem : ∀ rc : (Fin nq → ℚ) × ℚ,
      rc ∈ keptRows constraints ↔ rc ∈ stackedRows constraints ∧ (∑ j, rc.1 j) ≠ 0 := by
    intro rc
    simp [keptRows, List.mem_filter]
  refine ⟨hmem, ?_, ?_, ?_⟩
  · rw [activeNc, keptRows, List.countP_eq_length_filter]
  · intro rc hmem2 hzero hkept
    rcases (hmem rc).mp hkept with ⟨-, hsum⟩
    exact hsum (by simp [hzero])
  · intro tree taus sigma
    exact getODE_append_zeroRow tree taus constraints sigma

/-- C8 (amended): removing an all-zero constraint row is *not* observable at
the interface: `getODE` returns only `qDDot`, and a call carrying an extra
all-zero-row constraint returns exactly the same value as the same call with
that constraint absent. -/
theorem getODE_dropped_row_unobservable {nq : Nat} (tree : BodyTree nq)
    (taus : List (Fin nq → ℚ)) (constraints : List (ConstraintRows nq)) (sigma : ℚ) :
    getODE tree taus (constraints ++ [[((0 : Fin nq → ℚ), sigma)]]) =
      getODE tree taus constraints :=
  getODE_append_zeroRow tree taus constraints sigma

theorem massMatrix_exTree : massMatrix exTree = 1 := by
  ext i j
  fin_cases i <;> fin_cases j <;>
    simp [massMatrix, exTree, treeMfg, forestMfg, mfgAdd, localMfg, exBody,
      Matrix.mul_apply, Fin.sum_univ_three, Matrix.one_apply, Matrix.vecHead, Matrix.vecTail]

theorem rhsVec_exTree : rhsVec exTree [] = 0 := by
  funext i
  simp [rhsVec, exTree, treeMfg, forestMfg, mfgAdd, localMfg, exBody, tauSum, tauC]

theorem getODE_exTree_nil : getODE exTree [] [] = some 0 := by
  rw [getODE_of_stacked_nil _ _ _ (by simp [stackedRows]), massMatrix_exTree, rhsVec_exTree]
  simp [npSolve]

theorem keptRows_exC : keptRows [exC] = exC := by
  norm_num [keptRows, stackedRows, exC, List.filter_cons, Fin.sum_univ_two]

theorem saddleA_exC_det : (saddleA (massMatrix exTree) (keptRows [exC])).det = 2 := by
  haveI : Invertible (1 : Matrix (Fin 2) (Fin 2) ℚ) := invertibleOne
  rw [keptRows_exC, massMatrix_exTree, saddleA, Matrix.det_fromBlocks₁₁]
  haveI : Unique (Fin (List.length exC)) := inferInstanceAs (Unique (Fin 1))
  norm_num [constraintMatrix, exC]
  norm_num [Matrix.mul_apply, Fin.sum_univ_two]

theorem massMatrix_gTree : massMatrix gTree = 0 := by
  ext i j
  simp [massMatrix, gTree, treeMfg, forestMfg, mfgAdd, localMfg, gBody]

/-- Witness for C1 at a concrete one-body tree: once with one kept constraint
row, once with no constraints. -/
theorem getODE_exact_saddle_solution_witness :
    (∃ x : (Fin 2 ⊕ Fin (keptRows [exC]).length) → ℚ,
      saddleA (massMatrix exTree) (keptRows [exC]) *ᵥ x =
        saddleB (rhsVec exTree []) (keptRows [exC]) ∧
      getODE exTree [] [exC] = some (x ∘ Sum.inl)) ∧
    (∃ y : Fin 2 → ℚ, massMatrix exTree *ᵥ y = rhsVec exTree [] ∧
      getODE exTree [] [] = some y) :=
  ⟨(getODE_exact_saddle_solution exTree [] [exC]).1
      (by rw [keptRows_exC]; simp [exC])
      (by rw [saddleA_exC_det]; norm_num),
   (getODE_exact_saddle_solution exTree [] []).2 rfl
      (by rw [massMatrix_exTree]; simp)⟩

/-- Witness for C3 at the same concrete constrained system. -/
theorem getODE_satisfies_kept_constraints_witness :
    ∃ qDDot : Fin 2 → ℚ, getODE exTree [] [exC] = some qDDot ∧
      ∀ i : Fin (keptRows [exC]).length,
        (constraintMatrix (keptRows [exC]) *ᵥ qDDot) i + sigmaVec (keptRows [exC]) i = 0 :=
  getODE_satisfies_kept_constraints exTree [] [exC]
    (by rw [keptRows_exC]; simp [exC]) (by rw [saddleA_exC_det]; norm_num)

/-- Witness for C2: the concrete all-zero row of `zC` is excluded from the
kept rows. -/
theorem getODE_row_dropping_witness :
    ((0 : Fin 2 → ℚ), (5 : ℚ)) ∉ keptRows [zC, exC] :=
  (getODE_row_dropping [zC, exC]).2.2.1 (0, 5) (by simp [stackedRows, zC]) rfl

/-- Witness for C6 at a concrete degenerate (ground-only) tree: the singular
mass matrix surfaces as an error. -/
theorem getODE_singular_surfaces_error_witness :
    (getODE gTree [] [] = none ↔ (massMatrix gTree).det = 0) ∧
    getODE gTree [] [] = none := by
  have h := (getODE_singular_surfaces_error gTree [] []).1 rfl
  exact ⟨h, h.mpr (by rw [massMatrix_gTree, Matrix.det_zero ⟨(0 : Fin 2)⟩])⟩

/-- C8 counterexample: at a concrete solvable system, the call with an
all-zero-row constraint returns exactly the same (sole) output as the same
call with the constraint absent — no observable output distinguishes them, so
the removal is silently absorbed rather than observable. -/
theorem getODE_dropped_row_cex :
    getODE exTree [] [zC] = getODE exTree [] [] ∧ getODE exTree [] [] = some 0 := by
  constructor
  · have h := getODE_append_zeroRow exTree [] [] 5
    simpa [zC] using h
  · exact getODE_exTree_nil

/-- C7 counterexample: `setup` stores a non-positive count and returns
normally — setting `nq` non-positive is not itself a raised configuration
error (the claim asserts it is). -/
theorem setup_nonpositive_returns_ok :
    setup mrbInit (-1) = Except.ok { _nq := -1 } := rfl

/-- C7 (amended): reading `nq` before `setup()` (where `_nq = 0`) or whenever
the stored count is non-positive raises the configuration error; `setup` with
a non-positive value itself returns normally, and the error is detected at the
next read. -/
theorem nq_read_guard :
    (nqGet mrbInit = Except.error ConfigError.nqNotPositive) ∧
    (∀ s : MRBState, s._nq ≤ 0 → nqGet s = Except.error ConfigError.nqNotPositive) ∧
    (∀ (s : MRBState) (v : Int), v ≤ 0 →
      setup s v = Except.ok { _nq := v } ∧
      nqGet { _nq := v } = Except.error ConfigError.nqNotPositive) := by
  refine ⟨rfl, ?_, ?_⟩
  · intro s h
    rw [nqGet, if_neg (by omega)]
  · intro s v h
    exact ⟨rfl, by rw [nqGet, if_neg (show ¬v > 0 by omega)]⟩

/-- Witness for C7's amended guard at a concrete state and value. -/
theorem nq_read_guard_witness :
    setup mrbInit (-1) = Except.ok { _nq := -1 } ∧
    nqGet { _nq := -1 } = Except.error ConfigError.nqNotPositive :=
  nq_read_guard.2.2 mrbInit (-1) (by norm_num)

/-- C10: the returned `solve(A,b)[0:nq].squeeze()` has shape `[nq]` (a
length-`nq` vector) exactly when `nq ≥ 2`; for `nq = 1` the squeeze collapses
it to a 0-dimensional scalar. -/
theorem getODE_return_shape (nq nc : Nat) (h : 1 ≤ nq) :
    (getODEReturnShape nq nc = [nq] ↔ 2 ≤ nq) ∧
    (nq = 1 → getODEReturnShape nq nc = []) := by
  have hmin : min nq (nq + nc) = nq := Nat.min_eq_left (Nat.le_add_right _ _)
  constructor
  · constructor
    · intro hs
      by_contra hlt
      have h1 : nq = 1 := by omega
      subst h1
      simp [getODEReturnShape, npSqueezeShape, npSliceFirstShape, npSolveShape] at hs
    · intro h2
      have hne : nq ≠ 1 := by omega
      simp [getODEReturnShape, npSqueezeShape, npSliceFirstShape, npSolveShape, hmin, hne]
  · intro h1
    subst h1
    simp [getODEReturnShape, npSqueezeShape, npSliceFirstShape, npSolveShape]

/-- Witness for C10 at `nq = 1` (scalar collapse) and `nq = 2` (vector). -/
theorem getODE_return_shape_witness :
    getODEReturnShape 1 0 = [] ∧ getODEReturnShape 2 1 = [2] :=
  ⟨(getODE_return_shape 1 0 le_rfl).2 rfl,
   (getODE_return_shape 2 1 (by norm_num)).1.mpr (by norm_num)⟩

theorem dotProduct_self_nonneg {n : Type*} [Fintype n] (v : n → ℚ) : 0 ≤ v ⬝ᵥ v :=
  Finset.sum_nonneg fun i _ => mul_self_nonneg (v i)

theorem isSymmPSD_zero {n : Type*} [Fintype n] : IsSymmPSD (0 : Matrix n n ℚ) := by
  refine ⟨by simp, fun x => ?_⟩
  simp [Matrix.mulVec_zero]

theorem isSymmPSD_add {n : Type*} [Fintype n] {A B : Matrix n n ℚ}
    (hA : IsSymmPSD A) (hB : IsSymmPSD B) : IsSymmPSD (A + B) := by
  refine ⟨by rw [Matrix.transpose_add, hA.1, hB.1], fun x => ?_⟩
  rw [Matrix.add_mulVec, Matrix.dotProduct_add]
  exact add_nonneg (hA.2 x) (hB.2 x)

theorem isSymmPSD_gram {nq : Nat} (m : ℚ) (hm : 0 ≤ m) (J : Matrix (Fin 3) (Fin nq) ℚ) :
    IsSymmPSD (m • (Jᵀ * J)) := by
  refine ⟨by rw [Matrix.transpose_smul, Matrix.transpose_mul, Matrix.transpose_transpose],
    fun x => ?_⟩
  rw [Matrix.smul_mulVec_assoc, Matrix.dotProduct_smul, ← Matrix.mulVec_mulVec,
    Matrix.dotProduct_mulVec, Matrix.vecMul_transpose, smul_eq_mul]
  exact mul_nonneg hm (dotProduct_self_nonneg _)

theorem isSymmPSD_conj {nq : Nat} {I : Matrix (Fin 3) (Fin 3) ℚ} (hI : IsSymmPSD I)
    (J : Matrix (Fin 3) (Fin nq) ℚ) : IsSymmPSD (Jᵀ * I * J) := by
  refine ⟨?_, fun x => ?_⟩
  · rw [Matrix.transpose_mul, Matrix.transpose_mul, Matrix.transpose_transpose, hI.1,
      ← Matrix.mul_assoc]
  · rw [Matrix.mul_assoc, ← Matrix.mulVec_mulVec, ← Matrix.mulVec_mulVec,
      Matrix.dotProduct_mulVec, Matrix.vecMul_transpose]
    exact hI.2 (J *ᵥ x)

theorem localMfg_psd {nq : Nat} (d : BodyKin nq) (h : BodyOK d) : IsSymmPSD (localMfg d).1 :=
  isSymmPSD_add (isSymmPSD_gram d.m_B h.1 d.B_J_S) (isSymmPSD_conj h.2 d.B_J_R)

mutual

theorem treeMfg_psd {nq : Nat} : ∀ t : BodyTree nq, TreeBodiesOK t → IsSymmPSD (treeMfg t).1
  | .node d cs, h => by
    rw [treeMfg]
    exact isSymmPSD_add (localMfg_psd d h.1) (forestMfg_psd cs h.2)

theorem forestMfg_psd {nq : Nat} :
    ∀ f : BodyForest nq, ForestBodiesOK f → IsSymmPSD (forestMfg f).1
  | .nil, _ => by
    rw [forestMfg]
    exact isSymmPSD_zero
  | .cons t ts, h => by
    rw [forestMfg]
    exact isSymmPSD_add (treeMfg_psd t h.1) (forestMfg_psd ts h.2)

end

/-- C4: for any kinematic tree whose bodies all have nonnegative mass and a
symmetric positive semi-definite inertia tensor (Jacobians arbitrary), the
mass matrix assembled by `_recursiveComputationOfMfg` is symmetric positive
semi-definite. -/
theorem massMatrix_symmetric_psd {nq : Nat} (tree : BodyTree nq) (h : TreeBodiesOK tree) :
    IsSymmPSD (massMatrix tree) :=
  treeMfg_psd tree h

theorem exTree_bodiesOK : TreeBodiesOK exTree := by
  refine ⟨⟨by norm_num [exBody], by simp [exBody], fun x => ?_⟩, trivial⟩
  simpa [exBody, Matrix.one_mulVec] using dotProduct_self_nonneg x

/-- Witness for C4 at the concrete one-body tree. -/
theorem massMatrix_symmetric_psd_witness :
    TreeBodiesOK exTree ∧ IsSymmPSD (massMatrix exTree) :=
  ⟨exTree_bodiesOK, massMatrix_symmetric_psd exTree exTree_bodiesOK⟩

theorem skew_transpose {R : Type*} [CommRing R] (w : Fin 3 → R) :
    (skew w)ᵀ = -(skew w) := by
  ext i j
  fin_cases i <;> fin_cases j <;> simp [skew]

theorem exp_antisymm_orthogonal (S : Matrix (Fin 3) (Fin 3) ℝ) (h : Sᵀ = -S) :
    (NormedSpace.exp ℝ S)ᵀ * NormedSpace.exp ℝ S = 1 := by
  rw [← Matrix.exp_transpose, h,
    ← Matrix.exp_add_of_commute ℝ (-S) S (Commute.neg_left (Commute.refl S)),
    neg_add_cancel, NormedSpace.exp_zero]

theorem integrationStep_orthonormal_step (delta_t : ℝ) (s : RigidBody ℝ)
    (h : s.A_IBᵀ * s.A_IB = 1) :
    (integrationStep delta_t s).A_IBᵀ * (integrationStep delta_t s).A_IB = 1 := by
  have horth :
      (NormedSpace.exp ℝ (delta_t • skew (s.A_IB *ᵥ s.B_omega_B)))ᵀ *
        NormedSpace.exp ℝ (delta_t • skew (s.A_IB *ᵥ s.B_omega_B)) = 1 :=
    exp_antisymm_orthogonal _ (by rw [Matrix.transpose_smul, skew_transpose, smul_neg])
  show (NormedSpace.exp ℝ (delta_t • skew (s.A_IB *ᵥ s.B_omega_B)) * s.A_IB)ᵀ *
      (NormedSpace.exp ℝ (delta_t • skew (s.A_IB *ᵥ s.B_omega_B)) * s.A_IB) = 1
  rw [Matrix.transpose_mul, Matrix.mul_assoc, ← Matrix.mul_assoc
    (NormedSpace.exp ℝ (delta_t • skew (s.A_IB *ᵥ s.B_omega_B)))ᵀ, horth, Matrix.one_mul, h]

/-- C5: an orthonormal orientation stays exactly orthonormal under
`integrationStep` — the exponential-map update is an exact rotation — and
hence after any number of integration steps. -/
theorem integrationStep_orthonormal (delta_t : ℝ) (n : ℕ) (s : RigidBody ℝ)
    (h : s.A_IBᵀ * s.A_IB = 1) :
    (((integrationStep delta_t)^[n]) s).A_IBᵀ * (((integrationStep delta_t)^[n]) s).A_IB
      = 1 := by
  induction n with
  | zero => simpa using h
  | succ k ih =>
    rw [Function.iterate_succ_apply']
    exact integrationStep_orthonormal_step delta_t _ ih

/-- Witness for C5: five unit steps from the identity orientation at constant
unit angular velocity. -/
theorem integrationStep_orthonormal_witness :
    (((integrationStep 1)^[5]) exRealBody).A_IBᵀ * (((integrationStep 1)^[5]) exRealBody).A_IB
      = 1 :=
  integrationStep_orthonormal 1 5 exRealBody (by simp [exRealBody])

theorem skew_mulVec {R : Type*} [CommRing R] (v u : Fin 3 → R) :
    skew v *ᵥ u = v ×₃ u := by
  funext i
  fin_cases i <;>
    simp [skew, Matrix.mulVec, Matrix.dotProduct, Fin.sum_univ_three, cross_apply] <;> ring

/-- C9: for a free body with zero external wrench (and, as in the source,
nonzero mass and invertible inertia — numpy would produce NaN or raise for the
degenerate ones), `computeNaturalDynamics` sets the linear acceleration to
zero and the angular acceleration to the solution of Euler's rotation
equation `I·ωDot = -ω×(I·ω)`, leaving all other state unchanged. -/
theorem computeNaturalDynamics_euler {K : Type*} [Field K] [DecidableEq K]
    (body : RigidBody K) (_hm : body.m_B ≠ 0) (hI : body.B_I_B.det ≠ 0) :
    ∃ body2 : RigidBody K, computeNaturalDynamics body = some body2 ∧
      body2.B_a_B = 0 ∧
      body.B_I_B *ᵥ body2.B_omegaDot_B =
        -(body.B_omega_B ×₃ (body.B_I_B *ᵥ body.B_omega_B)) ∧
      body2.m_B = body.m_B ∧ body2.B_I_B = body.B_I_B ∧ body2.A_IB = body.A_IB ∧
      body2.B_omega_B = body.B_omega_B ∧ body2.B_r_IB = body.B_r_IB ∧
      body2.B_v_B = body.B_v_B := by
  have key : computeNaturalDynamics body = some
      { body with
        B_a_B := fun i => (0 : Fin 3 → K) i / body.m_B
        B_omegaDot_B := (body.B_I_B.det⁻¹ • body.B_I_B.adjugate) *ᵥ
          ((0 : Fin 3 → K) - skew body.B_omega_B *ᵥ (body.B_I_B *ᵥ body.B_omega_B)) } := by
    rw [computeNaturalDynamics, npInv, if_neg hI, Option.map_some']
  refine ⟨_, key, ?_, ?_, rfl, rfl, rfl, rfl, rfl, rfl⟩
  · funext i
    simp
  · show body.B_I_B *ᵥ ((body.B_I_B.det⁻¹ • body.B_I_B.adjugate) *ᵥ
      ((0 : Fin 3 → K) - skew body.B_omega_B *ᵥ (body.B_I_B *ᵥ body.B_omega_B))) = _
    rw [Matrix.smul_mulVec_assoc, Matrix.mulVec_smul, Matrix.mulVec_mulVec,
      Matrix.mul_adjugate, Matrix.smul_mulVec_assoc, Matrix.one_mulVec, smul_smul,
      inv_mul_cancel₀ hI, one_smul, zero_sub, skew_mulVec]

/-- Witness for C9 at a concrete unit-mass, identity-inertia body spinning at
`ω = (1, 2, 3)`. -/
theorem computeNaturalDynamics_euler_witness :
    ∃ body2 : RigidBody ℚ, computeNaturalDynamics exFreeBody = some body2 ∧
      body2.B_a_B = 0 ∧
      exFreeBody.B_I_B *ᵥ body2.B_omegaDot_B =
        -(exFreeBody.B_omega_B ×₃ (exFreeBody.B_I_B *ᵥ exFreeBody.B_omega_B)) ∧
      body2.m_B = exFreeBody.m_B ∧ body2.B_I_B = exFreeBody.B_I_B ∧
      body2.A_IB = exFreeBody.A_IB ∧ body2.B_omega_B = exFreeBody.B_omega_B ∧
      body2.B_r_IB = exFreeBody.B_r_IB ∧ body2.B_v_B = exFreeBody.B_v_B :=
  computeNaturalDynamics_euler exFreeBody (by norm_num [exFreeBody]) (by simp [exFreeBody])

end MBDE
